import Mathlib

/-!
Verification of the mioco coroutine runtime core (Rust sources:
`src/lib.rs`, `src/thread.rs`, `src/timer.rs`) against its
natural-language specification.

The Rust code is shallowly embedded: machine integers (`usize`) become
`Nat` with explicit `% 2 ^ 64` where truncation can occur, stateful
methods become pure functions from a state record to a new state paired
with a trace of the externally visible calls they make (scheduler
callbacks, event-loop calls), and code that can panic returns a sum
describing the panic.
-/

namespace Mioco

/-! ### Token encoding (`src/lib.rs`, `token_from_ids` / `token_to_ids`)

`const EVENT_SOURCE_TOKEN_SHIFT: usize = 10;`
`const EVENT_SOURCE_TOKEN_MASK: usize = (1 << EVENT_SOURCE_TOKEN_SHIFT) - 1;`

A mio `Token` wraps a `usize`; we model `usize` as a 64-bit machine
integer, so the left shift in `token_from_ids` is reduced `% 2 ^ 64`.
-/

/-- Bit width of `usize` in the model (64-bit platform). -/
def usizeSize : Nat := 2 ^ 64

/-- `EVENT_SOURCE_TOKEN_SHIFT` from `src/lib.rs`. -/
def EVENT_SOURCE_TOKEN_SHIFT : Nat := 10

/-- `EVENT_SOURCE_TOKEN_MASK` from `src/lib.rs`. -/
def EVENT_SOURCE_TOKEN_MASK : Nat := (1 <<< EVENT_SOURCE_TOKEN_SHIFT) - 1

/-- `fn token_from_ids(co_id: coroutine::Id, io_id: EventSourceId) -> Token`:
`Token((co_id.as_usize() << EVENT_SOURCE_TOKEN_SHIFT) | io_id.as_usize())`.
Both ids are `usize` values; the shift truncates to the machine width. -/
def token_from_ids (co_id io_id : Nat) : Nat :=
  ((co_id <<< EVENT_SOURCE_TOKEN_SHIFT) % usizeSize) ||| (io_id % usizeSize)

/-- `fn token_to_ids(token: Token) -> (coroutine::Id, EventSourceId)`:
`(val >> EVENT_SOURCE_TOKEN_SHIFT, val & EVENT_SOURCE_TOKEN_MASK)`. -/
def token_to_ids (token : Nat) : Nat × Nat :=
  (token >>> EVENT_SOURCE_TOKEN_SHIFT, token &&& EVENT_SOURCE_TOKEN_MASK)

/-- C1: token encoding round-trip.  For every coroutine id fitting the
remaining 54 bits of the 64-bit token and every event-source id fitting
the low 10 bits (`io_id <= EVENT_SOURCE_TOKEN_MASK = 1023`), decoding the
encoded token returns the original pair. -/
theorem token_roundtrip (co_id io_id : Nat)
    (hio : io_id ≤ EVENT_SOURCE_TOKEN_MASK)
    (hco : co_id < 2 ^ 54) :
    token_to_ids (token_from_ids co_id io_id) = (co_id, io_id) := by
  have hmaskeq : EVENT_SOURCE_TOKEN_MASK = 2 ^ 10 - 1 := by
    decide
  have hio10 : io_id < 2 ^ 10 := by
    rw [hmaskeq] at hio
    omega
  have hshift : co_id <<< EVENT_SOURCE_TOKEN_SHIFT = 2 ^ 10 * co_id := by
    rw [show EVENT_SOURCE_TOKEN_SHIFT = 10 from rfl, Nat.shiftLeft_eq]
    ring
  have hlt : 2 ^ 10 * co_id < usizeSize := by
    have h1 : (2 : Nat) ^ 10 * co_id < 2 ^ 10 * 2 ^ 54 := by
      have hpos : (0 : Nat) < 2 ^ 10 := by positivity
      exact (Nat.mul_lt_mul_left hpos).mpr hco
    have h2 : (2 : Nat) ^ 10 * 2 ^ 54 = usizeSize := by norm_num [usizeSize]
    omega
  have hiolt : io_id < usizeSize := by
    have : (2 : Nat) ^ 10 ≤ usizeSize := by norm_num [usizeSize]
    omega
  have hor : token_from_ids co_id io_id = 2 ^ 10 * co_id + io_id := by
    unfold token_from_ids
    rw [hshift, Nat.mod_eq_of_lt hlt, Nat.mod_eq_of_lt hiolt]
    exact (Nat.mul_add_lt_is_or hio10 co_id).symm
  unfold token_to_ids
  rw [hor]
  refine Prod.ext ?_ ?_
  · show (2 ^ 10 * co_id + io_id) >>> EVENT_SOURCE_TOKEN_SHIFT = co_id
    rw [show EVENT_SOURCE_TOKEN_SHIFT = 10 from rfl, Nat.shiftRight_eq_div_pow]
    omega
  · show (2 ^ 10 * co_id + io_id) &&& EVENT_SOURCE_TOKEN_MASK = io_id
    rw [hmaskeq, Nat.and_pow_two_sub_one_eq_mod]
    omega

/-- C1 witness: the round-trip theorem applied at `co_id = 5`,
`io_id = 7`. -/
theorem token_roundtrip_witness :
    (7 : Nat) ≤ EVENT_SOURCE_TOKEN_MASK ∧ (5 : Nat) < 2 ^ 54 ∧
      token_to_ids (token_from_ids 5 7) = (5, 7) :=
  ⟨by decide, by norm_num, token_roundtrip 5 7 (by decide) (by norm_num)⟩

/-! ### Coroutine state and `CoroutineControl` (`src/lib.rs`)

The `Coroutine` struct itself lives in `src/coroutine.rs`, which is not
part of the provided sources; its `State` enum is modelled from the
spec. -/

/-- Modelled from the spec: `coroutine::State` (defined in the missing
`src/coroutine.rs`) is one of
`{ Ready, Running, Blocked, Yielding, Finished(ExitStatus) }`. -/
inductive CoState where
  | Ready
  | Running
  | Blocked
  | Yielding
  | Finished
deriving DecidableEq, Repr

/-- Modelled from the spec: `State::is_ready()` holds exactly in the
`Ready` state (the spec's resume precondition names only `Ready`). -/
def CoState.is_ready : CoState → Bool
  | .Ready => true
  | _ => false

/-- `struct CoroutineControl` from `src/lib.rs`.  The `rc: RcCoroutine`
field is reduced to the data the embedded operations consult: the
referenced coroutine's `state` (behind `rc.borrow().state()`). -/
structure CoroutineControl where
  was_handled : Bool
  is_yielding : Bool
  state : CoState
deriving DecidableEq, Repr

/-! ### Default FIFO scheduler (`src/lib.rs`, `FifoSchedulerThread`)

Scheduler methods act on the per-thread scheduler state and emit a trace
of the calls they make on `CoroutineControl` handles (`resume`,
`migrate`).  The `thread_num: Arc<AtomicUsize>` shared counter is
modelled as the value read by `self.thread_num()` during the call. -/

/-- Externally visible calls a `FifoSchedulerThread` method makes. -/
inductive SchedAction where
  | resume (c : CoroutineControl)
  | migrate (c : CoroutineControl) (thread_id : Nat)
deriving DecidableEq, Repr

/-- `struct FifoSchedulerThread` from `src/lib.rs`: `thread_i: usize`,
`thread_num: Arc<AtomicUsize>` (modelled as the loaded value), and
`delayed: VecDeque<CoroutineControl>` (front = head of the list). -/
structure FifoSchedulerThread where
  thread_i : Nat
  thread_num : Nat
  delayed : List CoroutineControl
deriving DecidableEq, Repr

namespace FifoSchedulerThread

/-- `fn thread_next_i(&mut self) -> usize`:
`self.thread_i += 1; if self.thread_i >= self.thread_num() { self.thread_i = 0 }; self.thread_i`. -/
def thread_next_i (s : FifoSchedulerThread) : FifoSchedulerThread × Nat :=
  let ti := s.thread_i + 1
  let ti := if ti ≥ s.thread_num then 0 else ti
  ({ s with thread_i := ti }, ti)

/-- `fn spawned(&mut self, event_loop, coroutine_ctrl)`: picks
`thread_next_i()` and calls `coroutine_ctrl.migrate(event_loop, thread_i)`. -/
def spawned (s : FifoSchedulerThread) (c : CoroutineControl) :
    FifoSchedulerThread × List SchedAction :=
  let p := s.thread_next_i
  (p.1, [SchedAction.migrate c p.2])

/-- `fn ready(&mut self, event_loop, coroutine_ctrl)`: if
`coroutine_ctrl.is_yielding()` push it to the back of `delayed`,
otherwise `coroutine_ctrl.resume(event_loop)`. -/
def ready (s : FifoSchedulerThread) (c : CoroutineControl) :
    FifoSchedulerThread × List SchedAction :=
  if c.is_yielding then
    ({ s with delayed := s.delayed ++ [c] }, [])
  else
    (s, [SchedAction.resume c])

/-- The loop body of `fn tick`: `for _ in 0..len { let c = self.delayed.pop_front().unwrap(); c.resume(event_loop); }`.
`pop_front().unwrap()` on an empty deque is a panic, modelled as `none`. -/
def tickLoop :
    Nat → FifoSchedulerThread → List SchedAction →
      Option (FifoSchedulerThread × List SchedAction)
  | 0, s, acts => some (s, acts)
  | n + 1, s, acts =>
    match s.delayed with
    | [] => none
    | c :: rest =>
      tickLoop n { s with delayed := rest } (acts ++ [SchedAction.resume c])

/-- `fn tick(&mut self, event_loop)`: `let len = self.delayed.len();`
then the pop-and-resume loop runs `len` times. -/
def tick (s : FifoSchedulerThread) :
    Option (FifoSchedulerThread × List SchedAction) :=
  tickLoop s.delayed.length s []

end FifoSchedulerThread

/-- Helper for C4: running `tickLoop` for exactly the length of the
current `delayed` deque empties it and resumes its elements front
first, appended to the accumulated trace. -/
theorem tickLoop_drains (l : List CoroutineControl)
    (s : FifoSchedulerThread) (acts : List SchedAction) (h : s.delayed = l) :
    FifoSchedulerThread.tickLoop l.length s acts =
      some ({ s with delayed := [] }, acts ++ l.map SchedAction.resume) := by
  induction l generalizing s acts with
  | nil =>
    simp [FifoSchedulerThread.tickLoop]
    cases s
    simp_all
  | cons c rest ih =>
    simp only [List.length_cons, FifoSchedulerThread.tickLoop, h]
    rw [ih { s with delayed := rest } (acts ++ [SchedAction.resume c]) rfl]
    simp

/-- C2: FIFO scheduler round-robin spawn placement.  When the thread
count is positive and the stored index is in range (the invariant the
scheduler maintains), `spawned` migrates the new coroutine to thread
`(thread_i + 1) % thread_num` and records that index as the new
`thread_i`. -/
theorem fifo_spawned_round_robin (s : FifoSchedulerThread)
    (c : CoroutineControl) (hpos : 0 < s.thread_num)
    (hinv : s.thread_i < s.thread_num) :
    s.spawned c =
      ({ s with thread_i := (s.thread_i + 1) % s.thread_num },
       [SchedAction.migrate c ((s.thread_i + 1) % s.thread_num)]) := by
  unfold FifoSchedulerThread.spawned FifoSchedulerThread.thread_next_i
  by_cases hge : s.thread_i + 1 ≥ s.thread_num
  · have heq : s.thread_i + 1 = s.thread_num := by omega
    simp [hge, heq, Nat.mod_self]
  · have hlt : s.thread_i + 1 < s.thread_num := by omega
    simp [hge, Nat.mod_eq_of_lt hlt]

/-- C2 witness: at `thread_i = 2`, `thread_num = 3`, a spawn wraps
around to thread `0`. -/
theorem fifo_spawned_round_robin_witness :
    (0 : Nat) < 3 ∧ (2 : Nat) < 3 ∧
      FifoSchedulerThread.spawned ⟨2, 3, []⟩ ⟨false, false, .Ready⟩ =
        (⟨0, 3, []⟩, [SchedAction.migrate ⟨false, false, .Ready⟩ 0]) :=
  ⟨by decide, by decide,
    fifo_spawned_round_robin ⟨2, 3, []⟩ ⟨false, false, .Ready⟩
      (by decide) (by decide)⟩

/-- C3: FIFO scheduler yield deferral.  On `ready`, a yielding control
is pushed onto the back of `delayed` with no resume call; a
non-yielding control is resumed immediately with `delayed` untouched. -/
theorem fifo_ready_yield_defer (s : FifoSchedulerThread)
    (c : CoroutineControl) :
    (c.is_yielding = true →
      s.ready c = ({ s with delayed := s.delayed ++ [c] }, [])) ∧
    (c.is_yielding = false →
      s.ready c = (s, [SchedAction.resume c])) := by
  constructor
  · intro h
    simp [FifoSchedulerThread.ready, h]
  · intro h
    simp [FifoSchedulerThread.ready, h]

/-- C3 witness: the two branches of `ready` at concrete controls. -/
theorem fifo_ready_yield_defer_witness :
    FifoSchedulerThread.ready ⟨0, 1, []⟩ ⟨false, true, .Yielding⟩ =
        (⟨0, 1, [⟨false, true, .Yielding⟩]⟩, []) ∧
      FifoSchedulerThread.ready ⟨0, 1, []⟩ ⟨false, false, .Ready⟩ =
        (⟨0, 1, []⟩, [SchedAction.resume ⟨false, false, .Ready⟩]) :=
  ⟨(fifo_ready_yield_defer ⟨0, 1, []⟩ ⟨false, true, .Yielding⟩).1 rfl,
   (fifo_ready_yield_defer ⟨0, 1, []⟩ ⟨false, false, .Ready⟩).2 rfl⟩

/-- C4: FIFO scheduler tick drains the whole `delayed` deque: no panic
occurs, every element present at the start of the call is resumed in
insertion order (front first), and afterwards the deque is empty. -/
theorem fifo_tick_drains (s : FifoSchedulerThread) :
    s.tick = some ({ s with delayed := [] },
      s.delayed.map SchedAction.resume) := by
  unfold FifoSchedulerThread.tick
  rw [tickLoop_drains s.delayed s [] rfl]
  simp

/-! ### Event-loop handler (`src/thread.rs`, `Handler`)

`Handler` methods are embedded as functions from a handler state to a
new state paired with a trace of the calls they make on the event loop
(`shutdown`) and on the boxed `SchedulerThread` trait object
(`tick`, `spawned`, `ready`).  The scheduler object itself is external
to the handler, so its calls appear only in the trace.

The coroutine table `shared.coroutines` is a slab keyed by
`coroutine::Id`; we model it as an association list from coroutine id
to the boolean that `co.event(event_loop, token, events)` returns for
the delivered event (`Coroutine::event` lives in the missing
`src/coroutine.rs`; per the spec it returns whether the coroutine
becomes ready and is to be handed to the scheduler). -/

/-- Externally visible calls a `Handler` method makes. -/
inductive HAction where
  | shutdown
  | schedTick
  | schedSpawned (co : Nat)
  | schedReady (co : Nat)
deriving DecidableEq, Repr

/-- State of `Handler` together with its `HandlerShared` and the global
`coroutines_num` atomic it reads:
`coroutines` is the slab (id ↦ result of `co.event` for the incoming
event), `spawned` and `ready` are the `HandlerShared` buffers (holding
coroutine ids), and `coroutines_num` is the value loaded from
`thread_shared.coroutines_num`. -/
structure HandlerState where
  coroutines : List (Nat × Bool)
  spawned : List Nat
  ready : List Nat
  coroutines_num : Nat
deriving DecidableEq, Repr

namespace HandlerState

/-- One pass of the `deliver_to_scheduler` loop body plus the re-check:
swap out both buffers, call `scheduler.spawned` for each spawned and
`scheduler.ready` for each ready entry, and loop until both buffers are
seen empty.  In this model the scheduler calls are trace events that do
not refill the buffers, so fuel `spawned.length + ready.length + 1`
always suffices to reach the empty check. -/
def deliverLoop : Nat → HandlerState → HandlerState × List HAction
  | 0, h => (h, [])
  | n + 1, h =>
    if h.spawned = [] ∧ h.ready = [] then (h, [])
    else
      let acts := h.spawned.map HAction.schedSpawned ++
        h.ready.map HAction.schedReady
      let p := deliverLoop n { h with spawned := [], ready := [] }
      (p.1, acts ++ p.2)

/-- `pub fn deliver_to_scheduler(&mut self, event_loop)` from
`src/thread.rs`. -/
def deliver_to_scheduler (h : HandlerState) : HandlerState × List HAction :=
  deliverLoop (h.spawned.length + h.ready.length + 1) h

/-- `fn tick(&mut self, event_loop)` from `impl mio_orig::Handler for
Handler`: read `coroutines_num`; if it is zero call
`event_loop.shutdown()`; then `self.scheduler.tick(event_loop)`; then
`self.deliver_to_scheduler(event_loop)`. -/
def tick (h : HandlerState) : HandlerState × List HAction :=
  let shutdownActs := if h.coroutines_num = 0 then [HAction.shutdown] else []
  let p := h.deliver_to_scheduler
  (p.1, shutdownActs ++ [HAction.schedTick] ++ p.2)

/-- `fn ready(&mut self, event_loop, token, events)` from
`src/thread.rs`: decode the token, look the coroutine up in the slab;
if missing, log and return; otherwise call `co.event(...)` and, when it
returns true, `self.scheduler.ready(event_loop, co.to_coroutine_control())`;
finally `self.deliver_to_scheduler(event_loop)`. -/
def handlerReady (h : HandlerState) (token : Nat) :
    HandlerState × List HAction :=
  let co_id := (token_to_ids token).1
  match h.coroutines.lookup co_id with
  | none => (h, [])
  | some eventResult =>
    let schedActs := if eventResult then [HAction.schedReady co_id] else []
    let p := h.deliver_to_scheduler
    (p.1, schedActs ++ p.2)

end HandlerState

/-- The `deliver_to_scheduler` loop only emits scheduler `spawned` and
`ready` calls, never a `shutdown`. -/
theorem deliverLoop_no_shutdown (fuel : Nat) (h : HandlerState) :
    HAction.shutdown ∉ (HandlerState.deliverLoop fuel h).2 := by
  induction fuel generalizing h with
  | zero => simp [HandlerState.deliverLoop]
  | succ n ih =>
    simp only [HandlerState.deliverLoop]
    split
    · simp
    · intro hmem
      simp only [List.mem_append] at hmem
      rcases hmem with hmem | hmem
      · rcases hmem with hmem | hmem
        · rcases List.mem_map.mp hmem with ⟨x, _, hx⟩
          exact HAction.noConfusion hx
        · rcases List.mem_map.mp hmem with ⟨x, _, hx⟩
          exact HAction.noConfusion hx
      · exact ih _ hmem

/-- C5: on every `Handler::tick`, the event loop is shut down if and
only if the loaded `coroutines_num` is zero, and in every case the
trace then records the `scheduler.tick` call followed by the
`deliver_to_scheduler` calls, with the state update being exactly that
of `deliver_to_scheduler`. -/
theorem handler_tick_shutdown_on_empty (h : HandlerState) :
    (HAction.shutdown ∈ h.tick.2 ↔ h.coroutines_num = 0) ∧
    h.tick.2 = (if h.coroutines_num = 0 then [HAction.shutdown] else []) ++
      [HAction.schedTick] ++ h.deliver_to_scheduler.2 ∧
    h.tick.1 = h.deliver_to_scheduler.1 := by
  refine ⟨?_, rfl, rfl⟩
  by_cases hz : h.coroutines_num = 0
  · simp [HandlerState.tick, hz]
  · constructor
    · intro hmem
      simp only [HandlerState.tick, hz, if_false, List.nil_append,
        List.cons_append, List.mem_cons] at hmem
      rcases hmem with hmem | hmem
      · exact absurd hmem (by decide)
      · exact absurd hmem (deliverLoop_no_shutdown _ _)
    · intro hzero
      exact absurd hzero hz

/-- C8: a readiness event whose decoded coroutine id is absent from the
thread's coroutine table is a no-op: `Handler::ready` returns with the
handler state unchanged, no scheduler call and no event delivery. -/
theorem handler_ready_unknown_noop (h : HandlerState) (token : Nat)
    (habsent : h.coroutines.lookup (token_to_ids token).1 = none) :
    h.handlerReady token = (h, []) := by
  simp only [HandlerState.handlerReady, habsent]

/-- C8 witness: a handler with an empty coroutine table ignores a
readiness event for token `5 <<< 10` (coroutine id `5`). -/
theorem handler_ready_unknown_noop_witness :
    (HandlerState.mk [] [] [] 1).coroutines.lookup
        (token_to_ids (5 <<< 10)).1 = none ∧
      HandlerState.handlerReady ⟨[], [], [], 1⟩ (5 <<< 10) =
        (⟨[], [], [], 1⟩, []) :=
  ⟨rfl, handler_ready_unknown_noop ⟨[], [], [], 1⟩ (5 <<< 10) rfl⟩

/-! ### Inter-thread send retry (`src/lib.rs`, `sender_retry`)

The mio channel is external; the result of each successive
`sender.send(...)` attempt is an input `responses : Nat → SendResult`
(attempt index ↦ result).  The loop increments a counter on every
`Full`, panics once the counter exceeds 20000, panics immediately on
`Closed` or `Io`, and breaks on `Ok`; between `Full` attempts it yields
the native thread (an effect with no bearing on the result). -/

/-- Result of one `mio_orig::Sender::send` attempt:
`Ok(())`, `Err(NotifyError::Closed(_))`, `Err(NotifyError::Io(_))`,
`Err(NotifyError::Full(msg))`. -/
inductive SendResult where
  | ok
  | closed
  | io
  | full
deriving DecidableEq, Repr

/-- Outcome of `sender_retry`: normal return after a number of send
attempts (the last being the single successful one), or one of its
three panics. -/
inductive SendOutcome where
  | sent (attempts : Nat)
  | panicQueueFull
  | panicClosed
  | panicIo
deriving DecidableEq, Repr

/-- The `loop` of `fn sender_retry`: `attempt` is the index of the next
send call, `counter` the number of `Full` responses seen so far.
Terminates because `counter` grows on every recursive call and the loop
panics once `counter > 20000`. -/
def senderRetryLoop (responses : Nat → SendResult) (attempt counter : Nat) :
    SendOutcome :=
  match responses attempt with
  | .ok => .sent (attempt + 1)
  | .closed => .panicClosed
  | .io => .panicIo
  | .full =>
    if 20000 < counter + 1 then .panicQueueFull
    else senderRetryLoop responses (attempt + 1) (counter + 1)
termination_by 20001 - counter
decreasing_by omega

/-- `fn sender_retry<M: Send>(sender, msg)`: run the retry loop from
attempt 0 with `counter = 0`. -/
def sender_retry (responses : Nat → SendResult) : SendOutcome :=
  senderRetryLoop responses 0 0

/-- Helper for C6: from any loop entry whose counter still has
`20000 - counter` budget, if every response from `attempt` on is
`Full`, the loop panics with the queue-full diagnostic. -/
theorem senderRetryLoop_all_full (k : Nat) :
    ∀ attempt counter, counter + k = 20000 →
      (∀ j, responses j = SendResult.full) →
      senderRetryLoop responses attempt counter = .panicQueueFull := by
  induction k with
  | zero =>
    intro attempt counter hc hall
    rw [senderRetryLoop, hall attempt]
    simp only
    rw [if_pos (by omega)]
  | succ n ih =>
    intro attempt counter hc hall
    rw [senderRetryLoop, hall attempt]
    simp only
    rw [if_neg (by omega)]
    exact ih (attempt + 1) (counter + 1) (by omega) hall

/-- Helper for C6: when the `k` responses starting at `attempt` are all
`Full` and the counter budget is not exhausted, the loop retries past
them. -/
theorem senderRetryLoop_skip_full (k : Nat) :
    ∀ attempt counter, counter + k ≤ 20000 →
      (∀ j, j < k → responses (attempt + j) = SendResult.full) →
      senderRetryLoop responses attempt counter =
        senderRetryLoop responses (attempt + k) (counter + k) := by
  induction k with
  | zero => intro attempt counter _ _; rfl
  | succ n ih =>
    intro attempt counter hk hfull
    rw [senderRetryLoop, show responses attempt = SendResult.full by
      simpa using hfull 0 (by omega)]
    simp only
    rw [if_neg (by omega)]
    rw [ih (attempt + 1) (counter + 1) (by omega)
      (fun j hj => by
        have := hfull (j + 1) (by omega)
        rwa [show attempt + 1 + j = attempt + (j + 1) by omega])]
    rw [show attempt + 1 + n = attempt + (n + 1) by omega,
      show counter + 1 + n = counter + (n + 1) by omega]

/-- C6: inter-thread send retry policy.  (i) If the first `k ≤ 20000`
responses are `Full` and response `k` is `Ok`, `sender_retry` returns
normally after exactly `k + 1` send calls (the message is sent exactly
once).  (ii) If responses 0..20000 are all `Full` (20001 consecutive
`Full`s), it panics with the queue-full / increase-`notify_capacity`
diagnostic.  (iii) If the first non-`Full` response within the budget
is `Closed` or `Io`, it panics immediately with the corresponding
diagnostic. -/
theorem sender_retry_policy (responses : Nat → SendResult) :
    (∀ k, k ≤ 20000 → (∀ j, j < k → responses j = SendResult.full) →
      responses k = SendResult.ok →
      sender_retry responses = SendOutcome.sent (k + 1)) ∧
    ((∀ j, responses j = SendResult.full) →
      sender_retry responses = SendOutcome.panicQueueFull) ∧
    (∀ k, k ≤ 20000 → (∀ j, j < k → responses j = SendResult.full) →
      (responses k = SendResult.closed →
        sender_retry responses = SendOutcome.panicClosed) ∧
      (responses k = SendResult.io →
        sender_retry responses = SendOutcome.panicIo)) := by
  have hpre : ∀ k, k ≤ 20000 →
      (∀ j, j < k → responses j = SendResult.full) →
      sender_retry responses = senderRetryLoop responses k k := by
    intro k hk hfull
    unfold sender_retry
    have := @senderRetryLoop_skip_full responses k 0 0
      (by omega) (fun j hj => by simpa using hfull j hj)
    simpa using this
  refine ⟨?_, ?_, ?_⟩
  · intro k hk hfull hok
    rw [hpre k hk hfull, senderRetryLoop, hok]
  · intro hall
    exact @senderRetryLoop_all_full responses 20000 0 0 (by omega) hall
  · intro k hk hfull
    constructor
    · intro hc
      rw [hpre k hk hfull, senderRetryLoop, hc]
    · intro hi
      rw [hpre k hk hfull, senderRetryLoop, hi]

/-- C6 witness: with three `Full` responses followed by `Ok`,
`sender_retry` returns after 4 send calls; with `Full` forever it
panics with the queue-full diagnostic. -/
theorem sender_retry_policy_witness :
    sender_retry (fun n => if n < 3 then SendResult.full else SendResult.ok) =
        SendOutcome.sent 4 ∧
      sender_retry (fun _ => SendResult.full) = SendOutcome.panicQueueFull :=
  ⟨(sender_retry_policy
      (fun n => if n < 3 then SendResult.full else SendResult.ok)).1 3
      (by omega) (fun j hj => by simp [hj]) (by simp),
   (sender_retry_policy (fun _ => SendResult.full)).2.1 (fun _ => rfl)⟩

/-! ### Coroutine resume (`src/lib.rs`, `CoroutineControl::resume`) -/

/-- What `CoroutineControl::resume` does after setting
`was_handled = true`: either jump into the coroutine followed by the
`after_resume` maintenance, or panic because the coroutine was not in
the `Ready` state. -/
inductive ResumeResult where
  | jumpedIn
  | panicNotReady
deriving DecidableEq, Repr

/-- `pub fn resume(mut self, event_loop)` from `src/lib.rs`: set
`was_handled = true`; if `self.rc.borrow().state().is_ready()` then
`coroutine::jump_in(&co_rc); self.after_resume(event_loop)` else
`panic!("Tried to resume Coroutine that is not ready")`. -/
def CoroutineControl.resume (c : CoroutineControl) :
    CoroutineControl × ResumeResult :=
  let c := { c with was_handled := true }
  if c.state.is_ready then (c, ResumeResult.jumpedIn)
  else (c, ResumeResult.panicNotReady)

/-- C7: resume precondition.  A control whose coroutine is `Ready` is
jumped into (with the post-resume maintenance); a control in any other
state makes `resume` panic instead of running the coroutine.  In both
cases `was_handled` is set. -/
theorem resume_requires_ready (c : CoroutineControl) :
    (c.state = CoState.Ready →
      c.resume = ({ c with was_handled := true }, ResumeResult.jumpedIn)) ∧
    (c.state ≠ CoState.Ready →
      c.resume =
        ({ c with was_handled := true }, ResumeResult.panicNotReady)) := by
  constructor
  · intro h
    simp [CoroutineControl.resume, h, CoState.is_ready]
  · intro h
    have : c.state.is_ready = false := by
      cases hs : c.state <;> simp_all [CoState.is_ready]
    simp [CoroutineControl.resume, this]

/-- C7 witness: a `Ready` control is resumed, a `Blocked` one panics. -/
theorem resume_requires_ready_witness :
    CoroutineControl.resume ⟨false, false, CoState.Ready⟩ =
        (⟨true, false, CoState.Ready⟩, ResumeResult.jumpedIn) ∧
      CoroutineControl.resume ⟨false, false, CoState.Blocked⟩ =
        (⟨true, false, CoState.Blocked⟩, ResumeResult.panicNotReady) :=
  ⟨(resume_requires_ready ⟨false, false, CoState.Ready⟩).1 rfl,
   (resume_requires_ready ⟨false, false, CoState.Blocked⟩).2 (by decide)⟩

/-! ### Timer (`src/timer.rs`)

`time::SteadyTime` is a monotonic clock instant; instants and the
`num_milliseconds()` of their differences are modelled at millisecond
granularity as `Int`.  Each operation that reads the clock takes the
current instant `now` as an argument. -/

/-- `struct TimerCore { timeout: SteadyTime }` from `src/timer.rs`. -/
structure TimerCore where
  timeout : Int
deriving DecidableEq, Repr

/-- The single event-loop call `TimerCore::register` makes:
`event_loop.timeout_ms(token, delay as u64)`. -/
inductive TimerAction where
  | timeout_ms (token : Nat) (delay : Nat)
deriving DecidableEq, Repr

namespace TimerCore

/-- `fn register(&self, event_loop, token, _interest)` from
`src/timer.rs`: `let delay = if timeout <= now { 0 } else { (timeout - now).num_milliseconds() };`
then `event_loop.timeout_ms(token, delay as u64)` (panicking only if
the external event loop rejects the timeout). -/
def register (tc : TimerCore) (now : Int) (token : Nat) : TimerAction :=
  let delay : Int := if tc.timeout ≤ now then 0 else tc.timeout - now
  TimerAction.timeout_ms token delay.toNat

/-- `fn should_resume(&self) -> bool` from `src/timer.rs`:
`self.timeout <= SteadyTime::now()`. -/
def should_resume (tc : TimerCore) (now : Int) : Bool :=
  tc.timeout ≤ now

end TimerCore

/-- `Timer::new()` from `src/timer.rs`: the fresh `TimerCore` has
`timeout: SteadyTime::now()`, the creation instant. -/
def Timer.new (now : Int) : TimerCore :=
  { timeout := now }

/-- `fn try_read(&mut self) -> Option<SteadyTime>` from `src/timer.rs`:
if `is_done()` (which is `rc.should_resume()`) return
`Some(SteadyTime::now())`, else `None`. -/
def Timer.try_read (tc : TimerCore) (now : Int) : Option Int :=
  if tc.should_resume now then some now else none

/-- `fn read(&mut self) -> SteadyTime` from `src/timer.rs`: loop
`try_read`, blocking (`block_on(RW::read())`) between attempts.  The
argument lists the clock instants at which successive `try_read`
attempts run; `none` means every listed attempt left the coroutine
blocked. -/
def Timer.readLoop (tc : TimerCore) : List Int → Option Int
  | [] => none
  | now :: rest =>
    match Timer.try_read tc now with
    | some t => some t
    | none => Timer.readLoop tc rest

/-- C9: timer registration delay.  `TimerCore::register` schedules a
one-shot timeout under the given token with delay
`max 0 (timeout − now)` milliseconds; in particular, a deadline already
in the past schedules a zero-delay timeout. -/
theorem timer_register_delay (tc : TimerCore) (now : Int) (token : Nat) :
    tc.register now token =
      TimerAction.timeout_ms token (max 0 (tc.timeout - now)).toNat ∧
    (tc.timeout ≤ now →
      tc.register now token = TimerAction.timeout_ms token 0) := by
  constructor
  · unfold TimerCore.register
    by_cases h : tc.timeout ≤ now
    · simp only [h, if_true]
      congr 1
      omega
    · simp only [h, if_false]
      congr 1
      omega
  · intro h
    unfold TimerCore.register
    simp [h]

/-- C9 witness: a deadline 5 ms in the future schedules a 5 ms timeout,
and a deadline 3 ms in the past schedules a zero-delay timeout. -/
theorem timer_register_delay_witness :
    TimerCore.register ⟨15⟩ 10 7 = TimerAction.timeout_ms 7 5 ∧
      TimerCore.register ⟨7⟩ 10 7 = TimerAction.timeout_ms 7 0 :=
  ⟨by
    have h := (timer_register_delay ⟨15⟩ 10 7).1
    rw [h]
    norm_num
    decide,
   (timer_register_delay ⟨7⟩ 10 7).2 (by norm_num)⟩

/-- C10: a freshly created timer is immediately ready.  For a timer
created at instant `t0`, at any later instant `t1 ≥ t0` (the clock is
monotone) and before any `set_timeout`/`set_timeout_absolute`,
`should_resume` already holds, `try_read` returns `Some`, and `read`
returns at its very first attempt, without blocking. -/
theorem fresh_timer_immediately_ready (t0 t1 : Int) (rest : List Int)
    (hmono : t0 ≤ t1) :
    (Timer.new t0).should_resume t1 = true ∧
    Timer.try_read (Timer.new t0) t1 = some t1 ∧
    Timer.readLoop (Timer.new t0) (t1 :: rest) = some t1 := by
  have hres : (Timer.new t0).should_resume t1 = true := by
    simp [Timer.new, TimerCore.should_resume, hmono]
  have htry : Timer.try_read (Timer.new t0) t1 = some t1 := by
    simp [Timer.try_read, hres]
  refine ⟨hres, htry, ?_⟩
  simp [Timer.readLoop, htry]

/-- C10 witness: a timer created at instant 42 read at the same
instant. -/
theorem fresh_timer_immediately_ready_witness :
    (Timer.new 42).should_resume 42 = true ∧
      Timer.try_read (Timer.new 42) 42 = some 42 ∧
      Timer.readLoop (Timer.new 42) [42] = some 42 :=
  fresh_timer_immediately_ready 42 42 [] (by norm_num)

end Mioco
